import Mathlib

/-!
# Verification of the postdel queue-dashboard core (src/main.go)

A shallow embedding of the program's state machine, listing parser, scroll
helpers and overlay compositor, with theorems settling the specification
claims.

Modelling conventions:
* Go strings are modelled as `List Char` (`Str`).  All inputs relevant to the
  claims are ASCII, where Go's byte-level and rune-level traversals coincide;
  for `looksLikeQueueID` the Boolean outcome agrees with the byte-level
  original on every input (a multi-byte rune fails the alphanumeric range
  check, and a string whose rune count is in range but whose byte count is
  not contains such a rune).
* The `bubbles` viewport and `lipgloss` rendering are third-party library
  code not present in the repository; the viewport operations are modelled
  from the spec (§4.1 Scroll Pane contract) and the cosmetic lipgloss
  rendering of the non-error screens is modelled from the spec (§4.3) at the
  granularity the claims need (quote characters of the original hint texts
  are elided).
* The three external subprocess calls are the External Queue Gateway of the
  spec.  `Update` returns, next to the new model, the list of gateway
  operations observable in the transition: synchronous calls made during the
  transition (the deletion) followed by the command the transition returns
  (listing / detail fetch / quit).  The deletion's outcome is supplied by a
  `DeleteOracle` argument standing for the environment.
-/

/-- Go strings, modelled as lists of characters. -/
abbrev Str := List Char

/-- White-space test used by Go's `strings.TrimSpace` / `strings.Fields`
(ASCII portion of `unicode.IsSpace`). -/
def isSpaceChar (c : Char) : Bool :=
  c = ' ' || c = '\t' || c = '\n' || c = '\x0b' || c = '\x0c' || c = '\r'

/-- ASCII lower-casing of one character (`strings.ToLower` on the key
strings the program compares, which are ASCII). -/
def toLowerChar (c : Char) : Char :=
  if 'A' ≤ c ∧ c ≤ 'Z' then Char.ofNat (c.toNat + 32) else c

/-- `strings.ToLower`. -/
def strToLower (s : Str) : Str := s.map toLowerChar

/-- `strings.TrimSpace`: drop leading and trailing white space. -/
def trimSpace (s : Str) : Str :=
  ((s.dropWhile isSpaceChar).reverse.dropWhile isSpaceChar).reverse

/-- Single pass of `strings.Fields`: `acc` is the currently open run of
non-white-space characters, flushed whenever white space (or the end of the
string) is reached. -/
def fieldsAux : Str → Str → List Str
  | [], acc => if acc = [] then [] else [acc]
  | c :: rest, acc =>
    if isSpaceChar c then
      if acc = [] then fieldsAux rest []
      else acc :: fieldsAux rest []
    else fieldsAux rest (acc ++ [c])

/-- `strings.Fields`: the maximal runs of non-white-space characters. -/
def fields (s : Str) : List Str := fieldsAux s []

/-- `looksLikeQueueID` from src/main.go: length between 3 and 20 and every
character an ASCII letter or digit (the loop returns `false` at the first
character outside all three ranges). -/
def looksLikeQueueID (s : Str) : Bool :=
  if s.length < 3 ∨ s.length > 20 then false
  else s.all fun r =>
    if (r < '0' ∨ '9' < r) ∧ (r < 'A' ∨ 'Z' < r) ∧ (r < 'a' ∨ 'z' < r)
    then false else true

/-- Per-line step of `parseMailqForIDs`: trim, skip blank lines, keep the
first field when it looks like a queue ID. -/
def parseLine (line : Str) : Option Str :=
  let t := trimSpace line
  if t = [] then none
  else
    match fields t with
    | [] => none
    | f :: _ => if looksLikeQueueID f then some f else none

/-- `parseMailqForIDs` from src/main.go: scan the output line by line
(`bufio.Scanner` yields the lines, modelled as the input list) and collect
the accepted first fields in order. -/
def parseMailqForIDs (output : List Str) : List Str :=
  output.filterMap parseLine

/-- An ASCII alphanumeric character, as the spec words it. -/
def isAsciiAlnum (c : Char) : Prop :=
  ('0' ≤ c ∧ c ≤ '9') ∨ ('A' ≤ c ∧ c ≤ 'Z') ∨ ('a' ≤ c ∧ c ≤ 'z')

instance (c : Char) : Decidable (isAsciiAlnum c) :=
  inferInstanceAs (Decidable (('0' ≤ c ∧ c ≤ '9') ∨ ('A' ≤ c ∧ c ≤ 'Z') ∨ ('a' ≤ c ∧ c ≤ 'z')))

/-- The listing filter exactly as the spec words it: "the first
whitespace-delimited field of each non-blank output line", "filtered to
tokens shaped like an identifier (length 3–20, alphanumeric only)".  A blank
line has no fields, so the non-blank condition is subsumed by `head?`. -/
def specListedIDs (output : List Str) : List Str :=
  output.filterMap fun line =>
    (fields line).head?.bind fun f =>
      if 3 ≤ f.length ∧ f.length ≤ 20 ∧ ∀ c ∈ f, isAsciiAlnum c
      then some f else none

/-- `maxInt` from src/main.go. -/
def maxInt (a b : Nat) : Nat := if a > b then a else b

/-- `padTo` from src/main.go: right-pad with spaces up to width `w`. -/
def padTo (s : Str) (w : Nat) : Str :=
  if s.length ≥ w then s else s ++ List.replicate (w - s.length) ' '

/-- `overlayLine` from src/main.go: pad both lines to the common width, then
cell by cell let the background show through space cells of the
foreground. -/
def overlayLine (bgLine fgLine : Str) : Str :=
  let w := maxInt bgLine.length fgLine.length
  let bg := padTo bgLine w
  let fg := padTo fgLine w
  List.zipWith (fun b f => if f = ' ' then b else f) bg fg

/-- `overlayStrings` from src/main.go: split both screens into lines, pad the
line counts with empty lines, merge line-wise, rejoin with newlines. -/
def overlayStrings (bg fg : Str) : Str :=
  let bgLines0 := bg.splitOn '\n'
  let fgLines0 := fg.splitOn '\n'
  let maxH := maxInt bgLines0.length fgLines0.length
  let bgLines := bgLines0 ++ List.replicate (maxH - bgLines0.length) []
  let fgLines := fgLines0 ++ List.replicate (maxH - fgLines0.length) []
  List.intercalate ['\n'] (List.zipWith overlayLine bgLines fgLines)

/-- One `bubbles` viewport.  The library is not part of the repository; its
state is modelled from the spec (§3 PaneState): content, offset, size. -/
structure Pane where
  width : Int := 0
  height : Int := 0
  yOffset : Int := 0
  content : Str := []
deriving DecidableEq, Repr

/-- `strings.Count(raw, "\n") + 1`: the number of lines of a text. -/
def strLines (s : Str) : Int := (s.count '\n' : Int) + 1

/-- Modelled from the spec (§4.1): `maxOffset = max(0, totalLines - height)`
of the viewport's own content. -/
def Pane.maxYOffset (p : Pane) : Int := max 0 (strLines p.content - p.height)

/-- Modelled from the spec (§4.1): offsets are clamped to `[0, maxOffset]`. -/
def Pane.setYOffset (p : Pane) (n : Int) : Pane :=
  { p with yOffset := max 0 (min n p.maxYOffset) }

/-- Modelled from the spec (§4.1): `lineUp(n)` shifts the offset up by `n`,
clamped. -/
def Pane.lineUp (p : Pane) (n : Int) : Pane := p.setYOffset (p.yOffset - n)

/-- Modelled from the spec (§4.1): `lineDown(n)` shifts the offset down by
`n`, clamped. -/
def Pane.lineDown (p : Pane) (n : Int) : Pane := p.setYOffset (p.yOffset + n)

/-- Modelled from the spec (§4.1): `gotoTop()` sets the offset to `0`. -/
def Pane.gotoTop (p : Pane) : Pane := { p with yOffset := 0 }

/-- Modelled from the spec (§4.1): `gotoBottom()` sets the offset to
`maxOffset`. -/
def Pane.gotoBottom (p : Pane) : Pane := { p with yOffset := p.maxYOffset }

/-- Modelled from the spec (§4.1): `setContent` replaces the content and
does not change the offset. -/
def Pane.setContent (p : Pane) (s : Str) : Pane := { p with content := s }

/-- `scrollHalfUp` from src/main.go: jump to the top when less than half a
page from it, else move half a page up.  (`rawText` is passed by the source
but unused here.) -/
def scrollHalfUp (v : Pane) (rawText : Str) : Pane :=
  let half := v.height / 2
  let offset := v.yOffset
  if offset < half then v.gotoTop else v.lineUp half

/-- `scrollHalfDown` from src/main.go: recompute the maximal offset from the
raw text, jump to the bottom when less than half a page from it, else move
half a page down. -/
def scrollHalfDown (v : Pane) (rawText : Str) : Pane :=
  let half := v.height / 2
  let totalLines := strLines rawText
  let maxOffset := totalLines - v.height
  if maxOffset < 0 then v.gotoBottom
  else
    let current := v.yOffset
    let rest := maxOffset - current
    if rest < half then v.gotoBottom else v.lineDown half

/-- The TUI state, field for field the `model` struct of src/main.go. -/
structure model where
  showWarning : Bool := false
  warningReady : Bool := false
  warningView : Pane := {}
  entries : List Str := []
  selected : Int := 0
  ready : Bool := false
  left : Pane := {}
  right : Pane := {}
  leftRaw : Str := []
  rightRaw : Str := []
  err : Option Str := none
  focus : Int := 0
  showDeleteDialog : Bool := false
  termWidth : Int := 0
  termHeight : Int := 0
  justDeleted : Bool := false
deriving DecidableEq, Repr

/-- The observable External Queue Gateway operations: the three subprocess
calls plus program termination (`tea.Quit`). -/
inductive ExtCall where
  | listQueue : ExtCall
  | fetchDetail : Str → ExtCall
  | deleteEntry : Str → ExtCall
  | quitProgram : ExtCall
deriving DecidableEq, Repr

/-- The events `Update` handles: resize, the three asynchronous results, and
key presses (a key is its `tea.KeyMsg.String()` form). -/
inductive Msg where
  | windowSize : Int → Int → Msg
  | mailqIDs : List Str → Msg
  | postcat : Str → Msg
  | errMsg : Str → Msg
  | key : Str → Msg
deriving DecidableEq, Repr

/-- Environment of the synchronous `postsuper -d` call: `none` is success,
`some (e, out)` is failure with error text `e` and combined output `out`. -/
def DeleteOracle := Str → Option (Str × Str)

/-- The detail-pane placeholder text set while a fetch is pending. -/
def loadingText : Str := "Loading details…".toList

/-- The error message built by `deleteQueueID` on failure
(`fmt.Errorf("error running postsuper -d %s: %w\nOutput:\n%s", ...)`). -/
def postsuperErrMsg (id e out : Str) : Str :=
  "error running postsuper -d ".toList ++ id ++ ": ".toList ++ e ++
    "\nOutput:\n".toList ++ out

/-- `syncLeft` from src/main.go: rebuild the list pane text, marking the
selected row.  The `selectedStyle` ANSI colour codes are cosmetic and
elided. -/
def syncLeft (m : model) : model :=
  let raw := (m.entries.enum.map fun p =>
    (if (p.1 : Int) = m.selected then "> ".toList else "  ".toList) ++
      p.2 ++ ['\n']).flatten
  { m with leftRaw := raw, left := m.left.setContent raw }

/-- The warning text of `syncWarningViewport` (quote characters elided). -/
def warningText : Str :=
  ("WARNING!\n\nUsually this program should be run as root or postfix " ++
   "so that mailq and postcat work properly.\n\nYou are NOT root/postfix. " ++
   "Some functions may fail.\n\nPress any key (except q/esc) to continue, " ++
   "or q/esc to cancel.").toList

/-- `syncWarningViewport` from src/main.go. -/
def syncWarningViewport (m : model) : model :=
  { m with warningView := m.warningView.setContent warningText }

/-- `deleteQueueID` from src/main.go: no-op when the selection is out of
range; otherwise run `postsuper -d` synchronously — on failure set the error
field and return no command, on success set the suppression flag and return
the listing command. -/
def deleteQueueID (del : DeleteOracle) (m : model) : model × List ExtCall :=
  if m.selected < 0 ∨ (m.entries.length : Int) ≤ m.selected then (m, [])
  else
    let id := m.entries.getD m.selected.toNat []
    match del id with
    | some (e, out) =>
      ({ m with err := some (postsuperErrMsg id e out) }, [ExtCall.deleteEntry id])
    | none =>
      ({ m with justDeleted := true }, [ExtCall.deleteEntry id, ExtCall.listQueue])

/-- The `tea.WindowSizeMsg` arm of `Update`. -/
def handleWindowSize (m : model) (w h : Int) : model × List ExtCall :=
  let m1 := { m with termWidth := w, termHeight := h }
  if m1.showWarning then
    let m2 :=
      if !m1.warningReady then
        { m1 with warningView := { width := w - 6, height := h - 11 },
                  warningReady := true }
      else
        { m1 with warningView :=
            { m1.warningView with width := w - 6, height := h - 11 } }
    (syncWarningViewport m2, [])
  else
    let m2 := { m1 with ready := true }
    let leftWidth : Int := 14
    let rightWidth := m2.termWidth - leftWidth - 8
    let m3 := { m2 with
      left := { m2.left with width := leftWidth, height := m2.termHeight - 5 },
      right := { m2.right with width := rightWidth, height := m2.termHeight - 5 } }
    (syncLeft m3, [])

/-- The `mailqIDsMsg` arm of `Update`: replace the entries, reset the
selection, rebuild the list pane; then either consume the suppression flag,
or auto-fetch the first entry's detail behind a loading placeholder, or (on
an empty list) do nothing further. -/
def handleMailq (m : model) (ids : List Str) : model × List ExtCall :=
  let m1 := syncLeft { m with entries := ids, selected := 0 }
  if !m1.justDeleted then
    if 0 < m1.entries.length then
      let m2 := { m1 with rightRaw := loadingText,
                          right := m1.right.setContent loadingText }
      (m2, [ExtCall.fetchDetail (m2.entries.getD m2.selected.toNat [])])
    else (m1, [])
  else ({ m1 with justDeleted := false }, [])

/-- The `postcatMsg` arm of `Update`: show the detail text, scrolled to the
bottom. -/
def handlePostcat (m : model) (s : Str) : model × List ExtCall :=
  ({ m with rightRaw := s, right := (m.right.setContent s).gotoBottom }, [])

/-- Key handling while the delete-confirmation dialog is shown (part 1 of
the `tea.KeyMsg` arm): the key is lower-cased; `y` confirms, `n`, enter,
escape and interrupt dismiss, everything else is ignored. -/
def handleKeyDialog (del : DeleteOracle) (m : model) (k : Str) : model × List ExtCall :=
  let kl := strToLower k
  if kl = "y".toList then
    deleteQueueID del { m with showDeleteDialog := false }
  else if kl = "n".toList ∨ kl = "enter".toList ∨ kl = "esc".toList ∨
      kl = "ctrl+c".toList then
    ({ m with showDeleteDialog := false }, [])
  else (m, [])

/-- List-pane navigation (part 4 of the `tea.KeyMsg` arm, `focus == 0`). -/
def handleKeyList (m : model) (k : Str) : model × List ExtCall :=
  if k = "up".toList then
    if 0 < m.selected then
      let m1 := syncLeft { m with selected := m.selected - 1 }
      (m1, [ExtCall.fetchDetail (m1.entries.getD m1.selected.toNat [])])
    else (m, [])
  else if k = "down".toList then
    if m.selected < (m.entries.length : Int) - 1 then
      let m1 := syncLeft { m with selected := m.selected + 1 }
      (m1, [ExtCall.fetchDetail (m1.entries.getD m1.selected.toNat [])])
    else (m, [])
  else if k = "pgup".toList then
    ({ m with left := scrollHalfUp m.left m.leftRaw }, [])
  else if k = "pgdown".toList then
    ({ m with left := scrollHalfDown m.left m.leftRaw }, [])
  else (m, [])

/-- Detail-pane navigation (part 4 of the `tea.KeyMsg` arm, `focus == 1`). -/
def handleKeyDetail (m : model) (k : Str) : model × List ExtCall :=
  if k = "up".toList then ({ m with right := m.right.lineUp 1 }, [])
  else if k = "down".toList then ({ m with right := m.right.lineDown 1 }, [])
  else if k = "pgup".toList then
    ({ m with right := scrollHalfUp m.right m.rightRaw }, [])
  else if k = "pgdown".toList then
    ({ m with right := scrollHalfDown m.right m.rightRaw }, [])
  else (m, [])

/-- The `tea.KeyMsg` arm of `Update`, in the source's order: the dialog
captures everything first; then the global quit / focus-toggle / delete
keys; then an active warning is dismissed (issuing the first listing); then
navigation by focus. -/
def handleKey (del : DeleteOracle) (m : model) (k : Str) : model × List ExtCall :=
  if m.showDeleteDialog then handleKeyDialog del m k
  else if k = "q".toList ∨ k = "esc".toList ∨ k = "ctrl+c".toList then
    (m, [ExtCall.quitProgram])
  else if k = "tab".toList then ({ m with focus := 1 - m.focus }, [])
  else if k = "d".toList then ({ m with showDeleteDialog := true }, [])
  else if m.showWarning then
    ({ m with showWarning := false }, [ExtCall.listQueue])
  else if m.focus = 0 then handleKeyList m k
  else handleKeyDetail m k

/-- `Update` from src/main.go. -/
def Update (del : DeleteOracle) (m : model) (msg : Msg) : model × List ExtCall :=
  match msg with
  | .windowSize w h => handleWindowSize m w h
  | .mailqIDs ids => handleMailq m ids
  | .postcat s => handlePostcat m s
  | .errMsg e => ({ m with err := some e }, [])
  | .key k => handleKey del m k

/-- `Init` from src/main.go: with the warning up no command is issued,
otherwise the first listing request. -/
def InitCmds (m : model) : List ExtCall :=
  if m.showWarning then [] else [ExtCall.listQueue]

/-- The terminal error screen of `View`
(`fmt.Sprintf("Error:\n%v\n(q to quit)", m.err)`). -/
def errViewText (e : Str) : Str :=
  "Error:\n".toList ++ e ++ "\n(q to quit)".toList

/-- Modelled from the spec (§4.3): the warning screen — the lipgloss border
drawing is library code not in the repository and is cosmetic here. -/
def renderWarningScreen (m : model) : Str :=
  m.warningView.content ++ "\n(q to quit, any other key to continue)".toList

/-- Modelled from the spec (§4.3): the main screen — the two panes and the
status line, with the confirmation box composited on top via the overlay
compositor when the dialog is shown.  Pane borders and centring are
lipgloss library code, cosmetic here. -/
def renderMainScreen (m : model) : Str :=
  let background := m.left.content ++ ['\n'] ++ m.right.content ++
    "\n[TAB] to switch focus, d to delete, q to quit.".toList
  if !m.showDeleteDialog then background
  else overlayStrings background "really delete [y/N]?".toList

/-- `View` from src/main.go: a set error replaces the whole UI; otherwise
the warning screen, the not-yet-sized placeholder, or the main layout. -/
def View (m : model) : Str :=
  match m.err with
  | some e => errViewText e
  | none =>
    if m.showWarning then
      if !m.warningReady then "Initializing terminal...".toList
      else renderWarningScreen m
    else if !m.ready then "Please wait…".toList
    else renderMainScreen m

/-- An environment where `postsuper -d` always succeeds. -/
def oracleOk : DeleteOracle := fun _ => none

/-- An environment where `postsuper -d` always fails with error text `boom`
and combined output `diagOut`. -/
def oracleFail : DeleteOracle := fun _ => some ("boom".toList, "diagOut".toList)

/-- A sample pane for the scroll witness: ten lines, height four, offset
one. -/
def paneSample : Pane :=
  { height := 4, yOffset := 1, content := "a\nb\nc\nd\ne\nf\ng\nh\ni\nj".toList }

/-- A state reached after an error result arrived (two entries listed, first
selected, list pane focused). -/
def mAfterErr : model :=
  { err := some "boom".toList, entries := ["AAA".toList, "BBB".toList], selected := 0 }

/-- A state with stale detail-pane text, before a listing result arrives. -/
def mPlain : model := { rightRaw := "old".toList }

/-- A sample listing result. -/
def idsSample : List Str := ["AB12CD".toList, "ZZ99ZZ".toList]

/-- `mPlain` after the sample listing was folded in. -/
def mPlainListed : model := syncLeft { mPlain with entries := idsSample, selected := 0 }

/-- A state with the delete-confirmation dialog open on a one-entry list. -/
def mDialog : model :=
  { showDeleteDialog := true, entries := ["AAA".toList], selected := 0,
    rightRaw := "old".toList }

/-- A state with one entry selected, dialog hidden. -/
def mDel : model := { entries := ["AAA".toList], selected := 0 }

/-- The initial state of an unprivileged run: warning shown. -/
def mWarn : model := { showWarning := true }

/-- A two-entry state with the first entry selected and stale detail text. -/
def mNav : model :=
  { entries := ["AAA".toList, "BBB".toList], selected := 0,
    rightRaw := "old".toList }

/-! ## Lemmas -/

theorem scrollHalfDown_yOffset (v : Pane) (raw : Str) :
    (scrollHalfDown v raw).yOffset =
      if strLines raw - v.height < 0 then v.maxYOffset
      else if strLines raw - v.height - v.yOffset < v.height / 2 then v.maxYOffset
      else max 0 (min (v.yOffset + v.height / 2) v.maxYOffset) := by
  simp only [scrollHalfDown, Pane.gotoBottom, Pane.lineDown, Pane.setYOffset]
  split_ifs <;> rfl

theorem scrollHalfUp_yOffset (v : Pane) (raw : Str) :
    (scrollHalfUp v raw).yOffset =
      if v.yOffset < v.height / 2 then 0
      else max 0 (min (v.yOffset - v.height / 2) v.maxYOffset) := by
  simp only [scrollHalfUp, Pane.gotoTop, Pane.lineUp, Pane.setYOffset]
  split_ifs <;> rfl

/-! ## Claims -/

/-- C7: for a pane showing text `raw` with positive height and an in-bounds
offset, `scrollHalfDown` lands on `maxOffset` when less than half a page
remains below and on `offset + height/2` otherwise, never exceeding
`maxOffset`; symmetrically `scrollHalfUp` lands on `0` when less than half a
page remains above and on `offset - height/2` otherwise, never below `0`
(`maxOffset = max(0, totalLines - height)`). -/
theorem C7_half_page_scroll (v : Pane) (raw : Str)
    (hc : v.content = raw) (hh : 0 < v.height)
    (h0 : 0 ≤ v.yOffset)
    (hm : v.yOffset ≤ max 0 (strLines raw - v.height)) :
    ((scrollHalfDown v raw).yOffset =
      if max 0 (strLines raw - v.height) - v.yOffset < v.height / 2
      then max 0 (strLines raw - v.height)
      else v.yOffset + v.height / 2) ∧
    (scrollHalfDown v raw).yOffset ≤ max 0 (strLines raw - v.height) ∧
    ((scrollHalfUp v raw).yOffset =
      if v.yOffset < v.height / 2 then 0 else v.yOffset - v.height / 2) ∧
    0 ≤ (scrollHalfUp v raw).yOffset := by
  have hT : 1 ≤ strLines raw := by
    unfold strLines
    have : (0 : Int) ≤ (raw.count '\n' : Int) := Int.ofNat_nonneg _
    omega
  have hMY : v.maxYOffset = max 0 (strLines raw - v.height) := by
    unfold Pane.maxYOffset; rw [hc]
  rw [scrollHalfDown_yOffset, scrollHalfUp_yOffset, hMY]
  refine ⟨?_, ?_, ?_, ?_⟩ <;> split_ifs <;> omega

theorem C7_half_page_scroll_witness :
    (0 < paneSample.height ∧ 0 ≤ paneSample.yOffset ∧
      paneSample.yOffset ≤ max 0 (strLines paneSample.content - paneSample.height)) ∧
    (((scrollHalfDown paneSample paneSample.content).yOffset =
      if max 0 (strLines paneSample.content - paneSample.height) - paneSample.yOffset <
          paneSample.height / 2
      then max 0 (strLines paneSample.content - paneSample.height)
      else paneSample.yOffset + paneSample.height / 2) ∧
    (scrollHalfDown paneSample paneSample.content).yOffset ≤
      max 0 (strLines paneSample.content - paneSample.height) ∧
    ((scrollHalfUp paneSample paneSample.content).yOffset =
      if paneSample.yOffset < paneSample.height / 2 then 0
      else paneSample.yOffset - paneSample.height / 2) ∧
    0 ≤ (scrollHalfUp paneSample paneSample.content).yOffset) :=
  ⟨⟨by decide, by decide, by decide⟩,
   C7_half_page_scroll paneSample paneSample.content rfl (by decide) (by decide)
     (by decide)⟩

theorem maxInt_self (a : Nat) : maxInt a a = a := by
  unfold maxInt; simp

theorem padTo_of_le (s : Str) (w : Nat) (h : w ≤ s.length) : padTo s w = s := by
  unfold padTo; rw [if_pos h]

theorem zipWith_getD_eq (f : Char → Char → Char) :
    ∀ (l1 l2 : Str) (i : Nat), l1.length = l2.length → i < l1.length →
      (List.zipWith f l1 l2).getD i ' ' = f (l1.getD i ' ') (l2.getD i ' ')
  | [], _, i, _, hi => by simp at hi
  | _ :: _, [], _, h, _ => by simp at h
  | a :: l1, b :: l2, 0, _, _ => by simp
  | a :: l1, b :: l2, i + 1, h, hi => by
    simp only [List.zipWith_cons_cons, List.getD_cons_succ]
    exact zipWith_getD_eq f l1 l2 i (by simpa using h) (by simpa using hi)

theorem overlayLine_getD (bg fg : Str) (h : bg.length = fg.length) (i : Nat)
    (hi : i < bg.length) :
    (overlayLine bg fg).getD i ' ' =
      if fg.getD i ' ' = ' ' then bg.getD i ' ' else fg.getD i ' ' := by
  have hw : maxInt bg.length fg.length = fg.length := by rw [h, maxInt_self]
  simp only [overlayLine, hw]
  rw [padTo_of_le bg _ (le_of_eq h.symm), padTo_of_le fg _ (le_refl _)]
  exact zipWith_getD_eq _ bg fg i h hi

theorem zipWith_pick_allspace : ∀ (bg fg : Str), bg.length = fg.length →
    (∀ c ∈ fg, c = ' ') →
    List.zipWith (fun b f => if f = ' ' then b else f) bg fg = bg
  | [], [], _, _ => rfl
  | [], _ :: _, h, _ => by simp at h
  | _ :: _, [], h, _ => by simp at h
  | a :: l1, b :: l2, h, hsp => by
    have hb : b = ' ' := hsp b (by simp)
    simp only [List.zipWith_cons_cons, hb, if_pos]
    rw [zipWith_pick_allspace l1 l2 (by simpa using h)
      (fun c hc => hsp c (by simp [hc]))]

theorem overlayLine_allspace (bg fg : Str) (h : bg.length = fg.length)
    (hsp : ∀ c ∈ fg, c = ' ') : overlayLine bg fg = bg := by
  have hw : maxInt bg.length fg.length = fg.length := by rw [h, maxInt_self]
  simp only [overlayLine, hw]
  rw [padTo_of_le bg _ (le_of_eq h.symm), padTo_of_le fg _ (le_refl _)]
  exact zipWith_pick_allspace bg fg h hsp

theorem zipWith_overlayLine_allspace (B F : List Str)
    (h : List.Forall₂ (fun b f => b.length = f.length) B F)
    (hsp : ∀ f ∈ F, ∀ c ∈ f, c = ' ') : List.zipWith overlayLine B F = B := by
  induction h with
  | nil => rfl
  | @cons b f B1 F1 hbf _ ih =>
    simp only [List.zipWith_cons_cons]
    rw [overlayLine_allspace b f hbf (hsp f (by simp)),
      ih (fun g hg => hsp g (by simp [hg]))]

theorem grid_getD_spec : ∀ (B F : List Str) (i : Nat),
    List.Forall₂ (fun b f => b.length = f.length) B F → i < B.length →
    (List.zipWith overlayLine B F).getD i [] =
      overlayLine (B.getD i []) (F.getD i []) ∧
    (B.getD i []).length = (F.getD i []).length
  | [], _, i, _, hi => by simp at hi
  | _ :: _, [], _, h, _ => by cases h
  | b :: B, f :: F, 0, h, _ => by
    cases h with
    | cons hbf _ => exact ⟨rfl, hbf⟩
  | b :: B, f :: F, i + 1, h, hi => by
    cases h with
    | cons _ htail =>
      simp only [List.zipWith_cons_cons, List.getD_cons_succ]
      exact grid_getD_spec B F i htail (by simpa using hi)

/-- C8: the overlay compositor's cell rule — on lines padded to equal width
each output cell is the foreground cell unless that cell is a space, in
which case the background shows through (never a third value); the same rule
holds cell-wise on equally-shaped grids merged row by row; and overlaying an
all-space (blank) foreground grid of the same shape over any background via
`overlayStrings` returns the background unchanged. -/
theorem C8_overlay_compositing :
    (∀ (bg fg : Str), bg.length = fg.length → ∀ i, i < bg.length →
      (overlayLine bg fg).getD i ' ' =
        if fg.getD i ' ' = ' ' then bg.getD i ' ' else fg.getD i ' ') ∧
    (∀ (B F : List Str), List.Forall₂ (fun b f => b.length = f.length) B F →
      ∀ i j, i < B.length → j < (B.getD i []).length →
        ((List.zipWith overlayLine B F).getD i []).getD j ' ' =
          if (F.getD i []).getD j ' ' = ' ' then (B.getD i []).getD j ' '
          else (F.getD i []).getD j ' ') ∧
    (∀ (bg fg : Str),
      List.Forall₂ (fun b f => b.length = f.length)
        (bg.splitOn '\n') (fg.splitOn '\n') →
      (∀ f ∈ fg.splitOn '\n', ∀ c ∈ f, c = ' ') →
      overlayStrings bg fg = bg) := by
  refine ⟨overlayLine_getD, fun B F h i j hi hj => ?_, fun bg fg h hsp => ?_⟩
  · obtain ⟨hrow, hlen⟩ := grid_getD_spec B F i h hi
    rw [hrow]
    exact overlayLine_getD _ _ hlen j hj
  · have hlen : (bg.splitOn '\n').length = (fg.splitOn '\n').length := h.length_eq
    simp only [overlayStrings, hlen, maxInt_self, Nat.sub_self, List.replicate_zero,
      List.append_nil]
    rw [zipWith_overlayLine_allspace _ _ h hsp, List.intercalate_splitOn]

theorem C8_overlay_compositing_witness :
    (overlayLine "ab".toList "x ".toList).getD 1 ' ' = 'b' ∧
    overlayStrings "ab\ncd".toList "  \n  ".toList = "ab\ncd".toList := by
  constructor
  · have h := C8_overlay_compositing.1 "ab".toList "x ".toList (by decide) 1 (by decide)
    simpa using h
  · exact C8_overlay_compositing.2.2 "ab\ncd".toList "  \n  ".toList (by decide)
      (by decide)

theorem err_handleWindowSize (m : model) (w h : Int) :
    (handleWindowSize m w h).1.err = m.err := by
  simp only [handleWindowSize, syncWarningViewport, syncLeft]
  split_ifs <;> rfl

theorem err_handleMailq (m : model) (ids : List Str) :
    (handleMailq m ids).1.err = m.err := by
  simp only [handleMailq, syncLeft]
  split_ifs <;> rfl

theorem err_deleteQueueID (del : DeleteOracle) (m : model) (h : m.err.isSome) :
    ((deleteQueueID del m).1).err.isSome := by
  rcases hdel : del (m.entries.getD m.selected.toNat []) with _ | ⟨e1, out⟩ <;>
    simp only [deleteQueueID, hdel] <;> split_ifs <;> simp [h]

theorem err_handleKeyDialog (del : DeleteOracle) (m : model) (k : Str)
    (h : m.err.isSome) : ((handleKeyDialog del m k).1).err.isSome := by
  simp only [handleKeyDialog]
  split_ifs
  · exact err_deleteQueueID del { m with showDeleteDialog := false } h
  · exact h
  · exact h

theorem err_handleKeyList (m : model) (k : Str) :
    (handleKeyList m k).1.err = m.err := by
  simp only [handleKeyList, syncLeft]
  split_ifs <;> rfl

theorem err_handleKeyDetail (m : model) (k : Str) :
    (handleKeyDetail m k).1.err = m.err := by
  simp only [handleKeyDetail]
  split_ifs <;> rfl

theorem err_handleKey (del : DeleteOracle) (m : model) (k : Str)
    (h : m.err.isSome) : ((handleKey del m k).1).err.isSome := by
  unfold handleKey
  split_ifs <;>
    first
      | exact err_handleKeyDialog del m k h
      | exact h
      | (rw [err_handleKeyList]; exact h)
      | (rw [err_handleKeyDetail]; exact h)

/-- C1 (amended): a gateway failure result sets the error field and issues
no command; once the error is set no later transition ever clears it, and
every render of a model with the error set shows only the error text plus
the quit instruction.  The original claim's further assertion — that no
external operation (listing, detail fetch, delete) is ever issued after the
error — does not hold: key handling proceeds normally in the error state
(see the counterexample). -/
theorem C1_error_state (del : DeleteOracle) (m : model) (e : Str) :
    Update del m (Msg.errMsg e) = ({ m with err := some e }, []) ∧
    (∀ msg, (m.err).isSome → ((Update del m msg).1.err).isSome) ∧
    View { m with err := some e } = errViewText e := by
  refine ⟨rfl, ?_, rfl⟩
  intro msg h
  cases msg with
  | windowSize w hh => rw [Update, err_handleWindowSize]; exact h
  | mailqIDs ids => rw [Update, err_handleMailq]; exact h
  | postcat s => exact h
  | errMsg e2 => simp [Update]
  | key k => exact err_handleKey del m k h

theorem C1_error_state_witness :
    ((Update oracleOk mAfterErr (Msg.key "x".toList)).1.err).isSome :=
  (C1_error_state oracleOk mAfterErr "boom".toList).2.1 (Msg.key "x".toList)
    (by decide)

/-- C1 counterexample: in a reachable error state (error set after a failed
detail fetch), pressing the down key still issues a detail-fetch gateway
operation, refuting "no further external operations are ever issued". -/
theorem C1_counterexample :
    (mAfterErr.err).isSome = true ∧
    (Update oracleOk mAfterErr (Msg.key "down".toList)).2 =
      [ExtCall.fetchDetail "BBB".toList] := by decide

/-- C2 (amended): on a successful listing result the entries are replaced
and the selection resets to 0; a set suppression flag is cleared and no
detail fetch is auto-issued; otherwise a non-empty list triggers exactly one
detail fetch for entry 0 with the loading placeholder shown in the detail
pane; an empty list issues nothing and leaves the detail pane's previous
content in place — the original claim's "the detail pane is cleared" does
not hold (see the counterexample). -/
theorem C2_listing_result (del : DeleteOracle) (m : model) (ids : List Str) :
    (Update del m (Msg.mailqIDs ids)).1.selected = 0 ∧
    (Update del m (Msg.mailqIDs ids)).1.entries = ids ∧
    (m.justDeleted = true →
      Update del m (Msg.mailqIDs ids) =
        ({ syncLeft { m with entries := ids, selected := 0 } with
            justDeleted := false }, [])) ∧
    (m.justDeleted = false → ids ≠ [] →
      Update del m (Msg.mailqIDs ids) =
        ({ syncLeft { m with entries := ids, selected := 0 } with
            rightRaw := loadingText,
            right := (syncLeft { m with entries := ids, selected := 0 }).right.setContent
              loadingText },
         [ExtCall.fetchDetail (ids.getD 0 [])])) ∧
    (m.justDeleted = false → ids = [] →
      Update del m (Msg.mailqIDs ids) =
        (syncLeft { m with entries := ids, selected := 0 }, []) ∧
      (Update del m (Msg.mailqIDs ids)).1.rightRaw = m.rightRaw) := by
  refine ⟨?_, ?_, ?_, ?_, ?_⟩
  · simp only [Update, handleMailq, syncLeft]
    split_ifs <;> rfl
  · simp only [Update, handleMailq, syncLeft]
    split_ifs <;> rfl
  · intro hjd
    simp [Update, handleMailq, syncLeft, hjd]
  · intro hjd hne
    have hlen : 0 < ids.length := List.length_pos.mpr hne
    simp [Update, handleMailq, syncLeft, hjd, hlen, Pane.setContent]
  · intro hjd hemp
    subst hemp
    simp [Update, handleMailq, syncLeft, hjd]

theorem C2_listing_result_witness :
    Update oracleOk mPlain (Msg.mailqIDs idsSample) =
      ({ mPlainListed with
          rightRaw := loadingText,
          right := mPlainListed.right.setContent loadingText },
       [ExtCall.fetchDetail (idsSample.getD 0 [])]) :=
  (C2_listing_result oracleOk mPlain _).2.2.2.1 rfl (by decide)

/-- C2 counterexample: an empty listing result leaves the old detail text in
the pane instead of clearing it. -/
theorem C2_counterexample :
    (Update oracleOk mPlain (Msg.mailqIDs [])).1.rightRaw = "old".toList ∧
    "old".toList ≠ ([] : Str) := by decide

theorem deleteQueueID_out_of_range (del : DeleteOracle) (m : model)
    (h : m.selected < 0 ∨ (m.entries.length : Int) ≤ m.selected) :
    deleteQueueID del m = (m, []) := by
  simp only [deleteQueueID]
  rw [if_pos h]

theorem deleteQueueID_ok (del : DeleteOracle) (m : model)
    (h0 : 0 ≤ m.selected) (h1 : m.selected < (m.entries.length : Int))
    (hdel : del (m.entries.getD m.selected.toNat []) = none) :
    deleteQueueID del m =
      ({ m with justDeleted := true },
       [ExtCall.deleteEntry (m.entries.getD m.selected.toNat []),
        ExtCall.listQueue]) := by
  simp only [deleteQueueID]
  rw [if_neg (by push_neg; exact ⟨h0, h1⟩), hdel]

theorem deleteQueueID_fail (del : DeleteOracle) (m : model) (e out : Str)
    (h0 : 0 ≤ m.selected) (h1 : m.selected < (m.entries.length : Int))
    (hdel : del (m.entries.getD m.selected.toNat []) = some (e, out)) :
    deleteQueueID del m =
      ({ m with err := some (postsuperErrMsg (m.entries.getD m.selected.toNat []) e out) },
       [ExtCall.deleteEntry (m.entries.getD m.selected.toNat [])]) := by
  simp only [deleteQueueID]
  rw [if_neg (by push_neg; exact ⟨h0, h1⟩), hdel]

theorem handleKeyDialog_y (del : DeleteOracle) (m : model) (k : Str)
    (h : strToLower k = "y".toList) :
    handleKeyDialog del m k =
      deleteQueueID del { m with showDeleteDialog := false } := by
  simp [handleKeyDialog, h]

theorem handleKeyDialog_dismiss (del : DeleteOracle) (m : model) (k : Str)
    (h : strToLower k = "n".toList ∨ strToLower k = "enter".toList ∨
      strToLower k = "esc".toList ∨ strToLower k = "ctrl+c".toList) :
    handleKeyDialog del m k = ({ m with showDeleteDialog := false }, []) := by
  have hne : ¬ strToLower k = "y".toList := by
    rcases h with h | h | h | h <;> rw [h] <;> decide
  simp only [handleKeyDialog]
  rw [if_neg hne, if_pos h]

theorem handleKeyDialog_other (del : DeleteOracle) (m : model) (k : Str)
    (h1 : strToLower k ≠ "y".toList) (h2 : strToLower k ≠ "n".toList)
    (h3 : strToLower k ≠ "enter".toList) (h4 : strToLower k ≠ "esc".toList)
    (h5 : strToLower k ≠ "ctrl+c".toList) :
    handleKeyDialog del m k = (m, []) := by
  simp only [handleKeyDialog]
  rw [if_neg h1, if_neg (by push_neg; exact ⟨h2, h3, h4, h5⟩)]

theorem handleKey_dialog (del : DeleteOracle) (m : model) (k : Str)
    (hd : m.showDeleteDialog = true) :
    handleKey del m k = handleKeyDialog del m k := by
  simp [handleKey, hd]

/-- C3: while the confirmation dialog is shown, `y`/`Y` hides the dialog and
deletes the selected entry when the selection is in range (a successful
delete sets the suppression flag and issues the listing request; an
out-of-range selection performs no gateway call), and each of `n`, enter,
escape, interrupt hides the dialog with no other change and no gateway
call. -/
theorem C3_confirm_dialog (del : DeleteOracle) (m : model) (k : Str)
    (hd : m.showDeleteDialog = true) :
    ((k = "y".toList ∨ k = "Y".toList) → 0 ≤ m.selected →
      m.selected < (m.entries.length : Int) →
      del (m.entries.getD m.selected.toNat []) = none →
      Update del m (Msg.key k) =
        ({ m with showDeleteDialog := false, justDeleted := true },
         [ExtCall.deleteEntry (m.entries.getD m.selected.toNat []),
          ExtCall.listQueue])) ∧
    ((k = "y".toList ∨ k = "Y".toList) →
      (m.selected < 0 ∨ (m.entries.length : Int) ≤ m.selected) →
      Update del m (Msg.key k) = ({ m with showDeleteDialog := false }, [])) ∧
    ((k = "n".toList ∨ k = "enter".toList ∨ k = "esc".toList ∨
        k = "ctrl+c".toList) →
      Update del m (Msg.key k) = ({ m with showDeleteDialog := false }, [])) := by
  refine ⟨?_, ?_, ?_⟩
  · intro hk h0 h1 hdel
    have hlow : strToLower k = "y".toList := by
      rcases hk with hk | hk <;> subst hk <;> decide
    show handleKey del m k = _
    rw [handleKey_dialog del m k hd, handleKeyDialog_y del m k hlow]
    exact deleteQueueID_ok del { m with showDeleteDialog := false } h0 h1 hdel
  · intro hk hrange
    have hlow : strToLower k = "y".toList := by
      rcases hk with hk | hk <;> subst hk <;> decide
    show handleKey del m k = _
    rw [handleKey_dialog del m k hd, handleKeyDialog_y del m k hlow]
    exact deleteQueueID_out_of_range del { m with showDeleteDialog := false } hrange
  · intro hk
    have hlow : strToLower k = "n".toList ∨ strToLower k = "enter".toList ∨
        strToLower k = "esc".toList ∨ strToLower k = "ctrl+c".toList := by
      rcases hk with hk | hk | hk | hk <;> subst hk <;> simp <;> decide
    show handleKey del m k = _
    rw [handleKey_dialog del m k hd, handleKeyDialog_dismiss del m k hlow]

theorem C3_confirm_dialog_witness :
    Update oracleOk mDialog (Msg.key "Y".toList) =
      ({ mDialog with showDeleteDialog := false, justDeleted := true },
       [ExtCall.deleteEntry (mDialog.entries.getD mDialog.selected.toNat []),
        ExtCall.listQueue]) ∧
    Update oracleOk mDialog (Msg.key "n".toList) =
      ({ mDialog with showDeleteDialog := false }, []) :=
  ⟨(C3_confirm_dialog oracleOk mDialog _ rfl).1 (Or.inr rfl) (by decide)
      (by decide) rfl,
   (C3_confirm_dialog oracleOk mDialog _ rfl).2.2 (Or.inl rfl)⟩

/-- C9: a failing delete is atomic on the rest of the state — the resulting
model differs from the input only in the error field, which embeds the
external tool's combined diagnostic output (a suffix of the message), and
the only gateway operation of the transition is the delete itself: no
follow-up listing is issued. -/
theorem C9_delete_failure (del : DeleteOracle) (m : model) (e out : Str)
    (h0 : 0 ≤ m.selected) (h1 : m.selected < (m.entries.length : Int))
    (hf : del (m.entries.getD m.selected.toNat []) = some (e, out)) :
    deleteQueueID del m =
      ({ m with err := some (postsuperErrMsg (m.entries.getD m.selected.toNat []) e out) },
       [ExtCall.deleteEntry (m.entries.getD m.selected.toNat [])]) ∧
    out <:+ postsuperErrMsg (m.entries.getD m.selected.toNat []) e out := by
  refine ⟨deleteQueueID_fail del m e out h0 h1 hf, ?_⟩
  unfold postsuperErrMsg
  exact List.suffix_append _ _

theorem C9_delete_failure_witness :
    deleteQueueID oracleFail mDel =
      ({ mDel with err := some (postsuperErrMsg (mDel.entries.getD mDel.selected.toNat [])
          "boom".toList "diagOut".toList) },
       [ExtCall.deleteEntry (mDel.entries.getD mDel.selected.toNat [])]) ∧
    "diagOut".toList <:+
      postsuperErrMsg (mDel.entries.getD mDel.selected.toNat [])
        "boom".toList "diagOut".toList :=
  C9_delete_failure oracleFail mDel "boom".toList "diagOut".toList
    (by decide) (by decide) rfl

theorem quit_not_in_deleteQueueID (del : DeleteOracle) (m : model) :
    ExtCall.quitProgram ∉ (deleteQueueID del m).2 := by
  rcases hdel : del (m.entries.getD m.selected.toNat []) with _ | ⟨e, out⟩ <;>
    simp only [deleteQueueID, hdel] <;> split_ifs <;> simp

/-- C10: while the confirmation dialog is shown no key quits the program;
escape and interrupt merely hide the dialog, and any key whose lower-casing
is outside {y, n, enter, esc, ctrl+c} (for the canonical key strings:
outside {y, Y, n, N, enter, esc, ctrl+c}, in particular `q`) leaves the
whole state unchanged, dialog still visible, and issues no command. -/
theorem C10_dialog_captures (del : DeleteOracle) (m : model)
    (hd : m.showDeleteDialog = true) :
    (∀ k, ExtCall.quitProgram ∉ (Update del m (Msg.key k)).2) ∧
    (∀ k, (k = "esc".toList ∨ k = "ctrl+c".toList) →
      Update del m (Msg.key k) = ({ m with showDeleteDialog := false }, [])) ∧
    (∀ k, strToLower k ∉ ["y".toList, "n".toList, "enter".toList, "esc".toList,
        "ctrl+c".toList] →
      Update del m (Msg.key k) = (m, [])) := by
  refine ⟨?_, ?_, ?_⟩
  · intro k
    show ExtCall.quitProgram ∉ (handleKey del m k).2
    rw [handleKey_dialog del m k hd]
    by_cases h1 : strToLower k = "y".toList
    · rw [handleKeyDialog_y del m k h1]
      exact quit_not_in_deleteQueueID del _
    · by_cases h2 : strToLower k = "n".toList ∨ strToLower k = "enter".toList ∨
        strToLower k = "esc".toList ∨ strToLower k = "ctrl+c".toList
      · rw [handleKeyDialog_dismiss del m k h2]
        simp
      · push_neg at h2
        rw [handleKeyDialog_other del m k h1 h2.1 h2.2.1 h2.2.2.1 h2.2.2.2]
        simp
  · intro k hk
    have hlow : strToLower k = "n".toList ∨ strToLower k = "enter".toList ∨
        strToLower k = "esc".toList ∨ strToLower k = "ctrl+c".toList := by
      rcases hk with hk | hk <;> subst hk <;> simp <;> decide
    show handleKey del m k = _
    rw [handleKey_dialog del m k hd, handleKeyDialog_dismiss del m k hlow]
  · intro k hk
    simp only [List.mem_cons, not_or, List.not_mem_nil] at hk
    obtain ⟨h1, h2, h3, h4, h5, _⟩ := hk
    show handleKey del m k = _
    rw [handleKey_dialog del m k hd, handleKeyDialog_other del m k h1 h2 h3 h4 h5]

theorem C10_dialog_captures_witness :
    ExtCall.quitProgram ∉ (Update oracleOk mDialog (Msg.key "q".toList)).2 ∧
    Update oracleOk mDialog (Msg.key "esc".toList) =
      ({ mDialog with showDeleteDialog := false }, []) ∧
    Update oracleOk mDialog (Msg.key "q".toList) = (mDialog, []) :=
  ⟨(C10_dialog_captures oracleOk mDialog rfl).1 ("q".toList),
   (C10_dialog_captures oracleOk mDialog rfl).2.1 ("esc".toList) (Or.inl rfl),
   (C10_dialog_captures oracleOk mDialog rfl).2.2 ("q".toList) (by decide)⟩

theorem handleKey_quit (del : DeleteOracle) (m : model) (k : Str)
    (hd : m.showDeleteDialog = false)
    (hk : k = "q".toList ∨ k = "esc".toList ∨ k = "ctrl+c".toList) :
    handleKey del m k = (m, [ExtCall.quitProgram]) := by
  unfold handleKey
  rw [hd, if_neg (by decide), if_pos hk]

theorem handleKey_warning_dismiss (del : DeleteOracle) (m : model) (k : Str)
    (hd : m.showDeleteDialog = false) (hw : m.showWarning = true)
    (h1 : ¬(k = "q".toList ∨ k = "esc".toList ∨ k = "ctrl+c".toList))
    (h2 : k ≠ "tab".toList) (h3 : k ≠ "d".toList) :
    handleKey del m k = ({ m with showWarning := false }, [ExtCall.listQueue]) := by
  unfold handleKey
  rw [hd, if_neg (by decide), if_neg h1, if_neg h2, if_neg h3, hw, if_pos rfl]

theorem handleKey_to_list (del : DeleteOracle) (m : model) (k : Str)
    (hd : m.showDeleteDialog = false) (hw : m.showWarning = false)
    (hf : m.focus = 0)
    (h1 : ¬(k = "q".toList ∨ k = "esc".toList ∨ k = "ctrl+c".toList))
    (h2 : k ≠ "tab".toList) (h3 : k ≠ "d".toList) :
    handleKey del m k = handleKeyList m k := by
  unfold handleKey
  rw [hd, if_neg (by decide), if_neg h1, if_neg h2, if_neg h3, hw,
    if_neg (by decide), if_pos hf]

/-- C4 (amended): while the first-run warning is active, every key other
than the quit keys (`q`, escape, interrupt), the focus-toggle key `tab` and
the delete key `d` dismisses the warning and issues the first listing
request; a quit key quits immediately.  The original claim's "every key
press other than a quit key dismisses the warning" does not hold: `tab`
toggles focus and `d` opens the delete dialog, both leaving the warning
shown and issuing no listing (see the counterexample). -/
theorem C4_warning_keys (del : DeleteOracle) (m : model) (k : Str)
    (hw : m.showWarning = true) (hd : m.showDeleteDialog = false) :
    (k ∉ ["q".toList, "esc".toList, "ctrl+c".toList, "tab".toList, "d".toList] →
      Update del m (Msg.key k) =
        ({ m with showWarning := false }, [ExtCall.listQueue])) ∧
    ((k = "q".toList ∨ k = "esc".toList ∨ k = "ctrl+c".toList) →
      Update del m (Msg.key k) = (m, [ExtCall.quitProgram])) ∧
    Update del m (Msg.key "tab".toList) = ({ m with focus := 1 - m.focus }, []) ∧
    (Update del m (Msg.key "tab".toList)).1.showWarning = true ∧
    Update del m (Msg.key "d".toList) = ({ m with showDeleteDialog := true }, []) ∧
    (Update del m (Msg.key "d".toList)).1.showWarning = true := by
  have htab : Update del m (Msg.key "tab".toList) =
      ({ m with focus := 1 - m.focus }, []) := by
    show handleKey del m ("tab".toList) = _
    unfold handleKey
    rw [hd, if_neg (by decide), if_neg (by decide), if_pos rfl]
  have hdkey : Update del m (Msg.key "d".toList) =
      ({ m with showDeleteDialog := true }, []) := by
    show handleKey del m ("d".toList) = _
    unfold handleKey
    rw [hd, if_neg (by decide), if_neg (by decide), if_neg (by decide), if_pos rfl]
  refine ⟨?_, ?_, htab, ?_, hdkey, ?_⟩
  · intro hk
    simp only [List.mem_cons, not_or, List.not_mem_nil] at hk
    obtain ⟨h1, h2, h3, h4, h5, _⟩ := hk
    exact handleKey_warning_dismiss del m k hd hw (by push_neg; exact ⟨h1, h2, h3⟩)
      h4 h5
  · intro hk
    exact handleKey_quit del m k hd hk
  · rw [htab]; exact hw
  · rw [hdkey]; exact hw

theorem C4_warning_keys_witness :
    Update oracleOk mWarn (Msg.key "x".toList) =
      ({ mWarn with showWarning := false }, [ExtCall.listQueue]) ∧
    Update oracleOk mWarn (Msg.key "q".toList) =
      (mWarn, [ExtCall.quitProgram]) :=
  ⟨(C4_warning_keys oracleOk mWarn _ rfl rfl).1 (by decide),
   (C4_warning_keys oracleOk mWarn _ rfl rfl).2.1 (Or.inl rfl)⟩

/-- C4 counterexample: with the warning active, `tab` neither dismisses the
warning nor issues the listing request. -/
theorem C4_counterexample :
    (Update oracleOk mWarn (Msg.key "tab".toList)).1.showWarning = true ∧
    (Update oracleOk mWarn (Msg.key "tab".toList)).2 = [] := by decide

/-- C5 (amended): with focus on the list pane and the dialog hidden, up and
down move the selection by exactly one, clamped to the list bounds, and
whenever the selection changes exactly one detail fetch for the newly
selected entry is issued; the detail pane's content is left unchanged until
that fetch resolves — the original claim's "with an interim placeholder
shown in the detail pane" does not hold for navigation (see the
counterexample).  Page-up and page-down half-page-scroll the list viewport
without changing the selection. -/
theorem C5_list_navigation (del : DeleteOracle) (m : model)
    (hd : m.showDeleteDialog = false) (hw : m.showWarning = false)
    (hf : m.focus = 0) :
    ((m.selected < (m.entries.length : Int) - 1 →
      Update del m (Msg.key "down".toList) =
        (syncLeft { m with selected := m.selected + 1 },
         [ExtCall.fetchDetail (m.entries.getD (m.selected + 1).toNat [])])) ∧
     (¬ m.selected < (m.entries.length : Int) - 1 →
      Update del m (Msg.key "down".toList) = (m, []))) ∧
    ((0 < m.selected →
      Update del m (Msg.key "up".toList) =
        (syncLeft { m with selected := m.selected - 1 },
         [ExtCall.fetchDetail (m.entries.getD (m.selected - 1).toNat [])])) ∧
     (¬ 0 < m.selected →
      Update del m (Msg.key "up".toList) = (m, []))) ∧
    (Update del m (Msg.key "down".toList)).1.rightRaw = m.rightRaw ∧
    (Update del m (Msg.key "up".toList)).1.rightRaw = m.rightRaw ∧
    Update del m (Msg.key "pgup".toList) =
      ({ m with left := scrollHalfUp m.left m.leftRaw }, []) ∧
    (Update del m (Msg.key "pgup".toList)).1.selected = m.selected ∧
    Update del m (Msg.key "pgdown".toList) =
      ({ m with left := scrollHalfDown m.left m.leftRaw }, []) ∧
    (Update del m (Msg.key "pgdown".toList)).1.selected = m.selected := by
  have hdown : Update del m (Msg.key "down".toList) = handleKeyList m ("down".toList) :=
    handleKey_to_list del m _ hd hw hf (by decide) (by decide) (by decide)
  have hup : Update del m (Msg.key "up".toList) = handleKeyList m ("up".toList) :=
    handleKey_to_list del m _ hd hw hf (by decide) (by decide) (by decide)
  have hpgup : Update del m (Msg.key "pgup".toList) = handleKeyList m ("pgup".toList) :=
    handleKey_to_list del m _ hd hw hf (by decide) (by decide) (by decide)
  have hpgdown : Update del m (Msg.key "pgdown".toList) =
      handleKeyList m ("pgdown".toList) :=
    handleKey_to_list del m _ hd hw hf (by decide) (by decide) (by decide)
  have edown : handleKeyList m ("down".toList) =
      if m.selected < (m.entries.length : Int) - 1 then
        (syncLeft { m with selected := m.selected + 1 },
         [ExtCall.fetchDetail (m.entries.getD (m.selected + 1).toNat [])])
      else (m, []) := by
    unfold handleKeyList
    rw [if_neg (by decide), if_pos rfl]
    rfl
  have eup : handleKeyList m ("up".toList) =
      if 0 < m.selected then
        (syncLeft { m with selected := m.selected - 1 },
         [ExtCall.fetchDetail (m.entries.getD (m.selected - 1).toNat [])])
      else (m, []) := by
    unfold handleKeyList
    rw [if_pos rfl]
    rfl
  have epgup : handleKeyList m ("pgup".toList) =
      ({ m with left := scrollHalfUp m.left m.leftRaw }, []) := by
    unfold handleKeyList
    rw [if_neg (by decide), if_neg (by decide), if_pos rfl]
  have epgdown : handleKeyList m ("pgdown".toList) =
      ({ m with left := scrollHalfDown m.left m.leftRaw }, []) := by
    unfold handleKeyList
    rw [if_neg (by decide), if_neg (by decide), if_neg (by decide), if_pos rfl]
  refine ⟨⟨fun h => ?_, fun h => ?_⟩, ⟨fun h => ?_, fun h => ?_⟩, ?_, ?_,
    ?_, ?_, ?_, ?_⟩
  · rw [hdown, edown, if_pos h]
  · rw [hdown, edown, if_neg h]
  · rw [hup, eup, if_pos h]
  · rw [hup, eup, if_neg h]
  · rw [hdown, edown]; split_ifs <;> rfl
  · rw [hup, eup]; split_ifs <;> rfl
  · rw [hpgup, epgup]
  · rw [hpgup, epgup]
  · rw [hpgdown, epgdown]
  · rw [hpgdown, epgdown]

theorem C5_list_navigation_witness :
    Update oracleOk mNav (Msg.key "down".toList) =
      (syncLeft { mNav with selected := mNav.selected + 1 },
       [ExtCall.fetchDetail (mNav.entries.getD (mNav.selected + 1).toNat [])]) ∧
    Update oracleOk mNav (Msg.key "up".toList) = (mNav, []) :=
  ⟨((C5_list_navigation oracleOk mNav rfl rfl rfl).1).1 (by decide),
   ((C5_list_navigation oracleOk mNav rfl rfl rfl).2.1).2 (by decide)⟩

/-- C5 counterexample: moving the selection down issues the fetch but leaves
the old detail text in place; no loading placeholder is shown. -/
theorem C5_counterexample :
    (Update oracleOk mNav (Msg.key "down".toList)).1.selected = 1 ∧
    (Update oracleOk mNav (Msg.key "down".toList)).1.rightRaw = "old".toList ∧
    "old".toList ≠ loadingText := by decide

theorem fieldsAux_allspace : ∀ (t acc : Str),
    (∀ c ∈ t, isSpaceChar c = true) →
    fieldsAux t acc = if acc = [] then [] else [acc]
  | [], _, _ => rfl
  | c :: t, acc, h => by
    have hc : isSpaceChar c = true := h c (by simp)
    have ht : fieldsAux t [] = [] := by
      rw [fieldsAux_allspace t [] (fun d hd => h d (by simp [hd]))]
      rfl
    by_cases hacc : acc = []
    · simp only [fieldsAux, hc, if_true, if_pos hacc, ht]
    · simp only [fieldsAux, hc, if_true, if_neg hacc, ht]

theorem fields_dropWhile_leading : ∀ s : Str,
    fieldsAux (s.dropWhile isSpaceChar) [] = fieldsAux s []
  | [] => rfl
  | c :: s => by
    by_cases hc : isSpaceChar c
    · rw [List.dropWhile_cons_of_pos hc, fields_dropWhile_leading s]
      simp only [fieldsAux, hc, if_true, if_pos rfl]
    · rw [List.dropWhile_cons_of_neg hc]

theorem fieldsAux_append_allspace : ∀ (s t acc : Str),
    (∀ c ∈ t, isSpaceChar c = true) →
    fieldsAux (s ++ t) acc = fieldsAux s acc
  | [], t, acc, h => by
    rw [List.nil_append, fieldsAux_allspace t acc h]
    rfl
  | c :: s, t, acc, h => by
    rw [List.cons_append]
    by_cases hc : isSpaceChar c = true
    · by_cases hacc : acc = []
      · simp only [fieldsAux]
        rw [if_pos hc, if_pos hc, if_pos hacc, if_pos hacc,
          fieldsAux_append_allspace s t [] h]
      · simp only [fieldsAux]
        rw [if_pos hc, if_pos hc, if_neg hacc, if_neg hacc,
          fieldsAux_append_allspace s t [] h]
    · simp only [fieldsAux]
      rw [if_neg hc, if_neg hc, fieldsAux_append_allspace s t (acc ++ [c]) h]

theorem fields_trimSpace (s : Str) : fields (trimSpace s) = fields s := by
  unfold fields trimSpace
  have hsplit : s.dropWhile isSpaceChar =
      (((s.dropWhile isSpaceChar).reverse.dropWhile isSpaceChar).reverse ++
        ((s.dropWhile isSpaceChar).reverse.takeWhile isSpaceChar).reverse) := by
    conv_lhs => rw [← List.reverse_reverse (s.dropWhile isSpaceChar),
      ← List.takeWhile_append_dropWhile (p := isSpaceChar)
        (l := (s.dropWhile isSpaceChar).reverse)]
    rw [List.reverse_append]
  have hu : ∀ c ∈ ((s.dropWhile isSpaceChar).reverse.takeWhile isSpaceChar).reverse,
      isSpaceChar c = true := by
    intro c hc
    rw [List.mem_reverse] at hc
    exact List.mem_takeWhile_imp hc
  conv_rhs => rw [← fields_dropWhile_leading s]
  conv_rhs => rw [hsplit]
  exact (fieldsAux_append_allspace _ _ [] hu).symm

theorem alnum_cond_iff (r : Char) :
    (¬((r < '0' ∨ '9' < r) ∧ (r < 'A' ∨ 'Z' < r) ∧ (r < 'a' ∨ 'z' < r))) ↔
      isAsciiAlnum r := by
  unfold isAsciiAlnum
  simp only [not_and_or, not_or, not_lt]

theorem looksLikeQueueID_iff (f : Str) :
    looksLikeQueueID f = true ↔
      (3 ≤ f.length ∧ f.length ≤ 20 ∧ ∀ c ∈ f, isAsciiAlnum c) := by
  unfold looksLikeQueueID
  split_ifs with hlen
  · constructor
    · intro h; exact absurd h (by simp)
    · rintro ⟨h1, h2, -⟩; omega
  · rw [List.all_eq_true]
    constructor
    · intro h
      refine ⟨by omega, by omega, fun c hc => ?_⟩
      have hcif := h c hc
      rw [← alnum_cond_iff]
      intro hcond
      rw [if_pos hcond] at hcif
      exact absurd hcif (by simp)
    · rintro ⟨-, -, h3⟩ c hc
      rw [if_neg ((alnum_cond_iff c).mpr (h3 c hc))]

theorem parseLine_eq_spec (line : Str) :
    parseLine line = (fields line).head?.bind fun f =>
      if 3 ≤ f.length ∧ f.length ≤ 20 ∧ ∀ c ∈ f, isAsciiAlnum c
      then some f else none := by
  by_cases ht : trimSpace line = []
  · have hfl : fields line = [] := by
      rw [← fields_trimSpace line, ht]
      rfl
    simp only [parseLine]
    rw [if_pos ht, hfl]
    rfl
  · simp only [parseLine]
    rw [if_neg ht, ← fields_trimSpace line]
    cases hfs : fields (trimSpace line) with
    | nil => simp
    | cons f rest =>
      show (if looksLikeQueueID f = true then some f else none) =
        (if 3 ≤ f.length ∧ f.length ≤ 20 ∧ ∀ c ∈ f, isAsciiAlnum c
          then some f else none)
      by_cases hOK : looksLikeQueueID f = true
      · rw [if_pos hOK, if_pos ((looksLikeQueueID_iff f).mp hOK)]
      · rw [if_neg hOK, if_neg (fun hshape =>
          hOK ((looksLikeQueueID_iff f).mpr hshape))]

/-- C6: the listing parser returns exactly the first whitespace-delimited
field of each non-blank output line whose length is between 3 and 20 and
which is ASCII-alphanumeric throughout, in input order: it coincides with
the spec-worded filter `specListedIDs`, every returned token has the
identifier shape, and in particular `AB` (length 2) and `AB-12`
(punctuation) never appear. -/
theorem C6_listing_ids :
    (∀ output : List Str, parseMailqForIDs output = specListedIDs output) ∧
    (∀ output : List Str, ∀ t ∈ parseMailqForIDs output,
      3 ≤ t.length ∧ t.length ≤ 20 ∧ ∀ c ∈ t, isAsciiAlnum c) ∧
    (∀ output : List Str, "AB".toList ∉ parseMailqForIDs output ∧
      "AB-12".toList ∉ parseMailqForIDs output) := by
  have heq : ∀ output : List Str, parseMailqForIDs output = specListedIDs output := by
    intro output
    unfold parseMailqForIDs specListedIDs
    rw [funext parseLine_eq_spec]
  have hshape : ∀ output : List Str, ∀ t ∈ parseMailqForIDs output,
      3 ≤ t.length ∧ t.length ≤ 20 ∧ ∀ c ∈ t, isAsciiAlnum c := by
    intro output t ht
    rw [heq] at ht
    unfold specListedIDs at ht
    rw [List.mem_filterMap] at ht
    obtain ⟨line, -, hline⟩ := ht
    cases hh : (fields line).head? with
    | none => rw [hh] at hline; exact absurd hline (by simp)
    | some f =>
      rw [hh] at hline
      by_cases hcond : 3 ≤ f.length ∧ f.length ≤ 20 ∧ ∀ c ∈ f, isAsciiAlnum c
      · have : some f = some t := by
          have hb : (some f).bind (fun f => if 3 ≤ f.length ∧ f.length ≤ 20 ∧
              ∀ c ∈ f, isAsciiAlnum c then some f else none) = some t := hline
          rwa [Option.some_bind, if_pos hcond] at hb
        cases this
        exact hcond
      · have hb : (some f).bind (fun f => if 3 ≤ f.length ∧ f.length ≤ 20 ∧
            ∀ c ∈ f, isAsciiAlnum c then some f else none) = some t := hline
        rw [Option.some_bind, if_neg hcond] at hb
        exact absurd hb (by simp)
  refine ⟨heq, hshape, fun output => ⟨fun hmem => ?_, fun hmem => ?_⟩⟩
  · have h := hshape output _ hmem
    revert h
    decide
  · have h := hshape output _ hmem
    revert h
    decide

theorem C6_listing_ids_witness :
    parseMailqForIDs ["AB cc".toList, "AB-12 x".toList, "  ABC12 y".toList] =
      specListedIDs ["AB cc".toList, "AB-12 x".toList, "  ABC12 y".toList] ∧
    (3 ≤ ("ABC12".toList).length ∧ ("ABC12".toList).length ≤ 20 ∧
      ∀ c ∈ "ABC12".toList, isAsciiAlnum c) :=
  ⟨C6_listing_ids.1 _,
   C6_listing_ids.2.1 ["AB cc".toList, "AB-12 x".toList, "  ABC12 y".toList]
     ("ABC12".toList) (by decide)⟩
